import Mathlib

/-!
Shallow embedding of the StellaPay milestone escrow contract
(src/contracts/stellapay/src/lib.rs) and verification of its
natural-language specification.

Addresses are modelled as natural numbers (the contract only compares them
for equality).  Machine integers are modelled as `Nat` / `Int` with the
explicit bounds that the source checks: the `u32` escrow counter, `u64`
timestamps and `i128` token amounts.  Storage is the association list
`escrows`; the reentrancy guard is the boolean `lock`; the time oracle is
an explicit `now` argument.  `require_auth` aborts the host invocation and
is therefore not a result path of the state machine; the claims fix the
caller instead.  Events and TTL extension have no effect on stored data
and are omitted.

The external token transfer (spec section 6) is a black box invoked through
the in-contract wrapper `safe_transfer`; operations take the transfer
behaviour as an explicit function argument `tf` so that claims about
transfer failure can be stated.  The wrapper itself, `safe_transfer`, is
embedded faithfully: it returns `Ok(())` unconditionally.
-/

deriving instance DecidableEq for Except

set_option maxRecDepth 10000

namespace StellaPay

/-! ### Constants (lib.rs 9-13) -/

def MIN_DURATION : Nat := 3600
def MAX_DURATION : Nat := 365 * 24 * 3600

def u32MAX : Nat := 2 ^ 32 - 1
def u64MAX : Nat := 2 ^ 64 - 1
def i128MAX : Int := 2 ^ 127 - 1
def i128MIN : Int := -(2 ^ 127)

abbrev Address := Nat

/-! ### Error and status enums (lib.rs 15-54) -/

inductive EscrowError where
  | AlreadyCompleted
  | NotAuthorized
  | InvalidDeadline
  | ZeroAmount
  | EscrowNotFound
  | TransferFailed
  | InvalidBeneficiary
  | InvalidArbiter
  | CounterOverflow
  | InvalidDuration
  | Reentrancy
  | InvalidMilestone
  | MilestoneNotCompleted
  | DisputePeriodActive
  | WorkStarted
  | MilestoneAlreadySubmitted
  | MilestoneNotSubmitted
deriving DecidableEq, Repr

inductive EscrowStatus where
  | Pending
  | InProgress
  | Released
  | Refunded
  | Disputed
deriving DecidableEq, Repr

inductive MilestoneStatus where
  | NotStarted
  | Submitted
  | Approved
  | Disputed
deriving DecidableEq, Repr

/-! ### Records (lib.rs 56-79) -/

structure Milestone where
  description : String
  amount : Int
  status : MilestoneStatus
  submitted_at : Option Nat
  approved_at : Option Nat
deriving DecidableEq, Repr

structure EscrowData where
  depositor : Address
  beneficiary : Address
  arbiter : Address
  token : Address
  total_amount : Int
  paid_amount : Int
  deadline : Nat
  status : EscrowStatus
  milestones : List Milestone
  work_started : Bool
deriving DecidableEq, Repr

/-- The contract's instance + persistent storage that the operations touch:
the escrow map keyed by id, the id counter, and the reentrancy lock flag. -/
structure ContractState where
  escrows : List (Nat × EscrowData)
  counter : Nat
  lock : Bool
deriving DecidableEq, Repr

def initState : ContractState := { escrows := [], counter := 0, lock := false }

/-! ### Storage helpers (lib.rs 112-182) -/

def lookupE : List (Nat × EscrowData) → Nat → Option EscrowData
  | [], _ => none
  | (k, v) :: rest, id => if k = id then some v else lookupE rest id

def setE : List (Nat × EscrowData) → Nat → EscrowData → List (Nat × EscrowData)
  | [], id, e => [(id, e)]
  | (k, v) :: rest, id, e => if k = id then (id, e) :: rest else (k, v) :: setE rest id e

/-- acquire_lock (lib.rs 131-139). -/
def acquire_lock (s : ContractState) : Except EscrowError ContractState :=
  if s.lock then .error .Reentrancy else .ok { s with lock := true }

/-- release_lock (lib.rs 141-144). -/
def release_lock (s : ContractState) : ContractState := { s with lock := false }

/-- load_escrow (lib.rs 146-152). -/
def load_escrow (s : ContractState) (id : Nat) : Except EscrowError EscrowData :=
  match lookupE s.escrows id with
  | some e => .ok e
  | none => .error .EscrowNotFound

/-- store_escrow (lib.rs 154-169); the TTL extension only touches lease
metadata and is not modelled. -/
def store_escrow (s : ContractState) (id : Nat) (e : EscrowData) : ContractState :=
  { s with escrows := setE s.escrows id e }

/-- peek_next_id (lib.rs 171-176): counter.checked_add(1) on u32. -/
def peek_next_id (s : ContractState) : Except EscrowError Nat :=
  if s.counter + 1 > u32MAX then .error .CounterOverflow else .ok (s.counter + 1)

/-- finalize_counter (lib.rs 178-182). -/
def finalize_counter (s : ContractState) (id : Nat) : ContractState :=
  { s with counter := id }

/-! ### The external transfer black box -/

/-- Behaviour of the token-transfer collaborator as seen through
`safe_transfer`: arguments are token, from, to, amount. -/
abbrev TransferFn := Address → Address → Address → Int → Except EscrowError Unit

/-- safe_transfer (lib.rs 184-194): builds a token client and invokes
`transfer`, which returns unit; the wrapper returns `Ok(())`
unconditionally, so as a Rust function it can never yield `Err`. -/
def safe_transfer (token_addr from_addr to_addr : Address) (amount : Int) :
    Except EscrowError Unit :=
  .ok ()

/-- A transfer behaviour in which the external token call reports failure,
modelling the spec's (section 6) fallible black box
transfer(from, to, amount) -> Result; used only to state the claims that
hypothesise a failing transfer, which the in-repository wrapper
`safe_transfer` cannot produce. -/
def failTransfer (token_addr from_addr to_addr : Address) (amount : Int) :
    Except EscrowError Unit :=
  .error .TransferFailed

/-- e.current_contract_address(): an opaque address distinct from nothing in
particular; the state machine only forwards it to the transfer black box. -/
def current_contract_address : Address := 2 ^ 64

/-! ### create (lib.rs 199-283) -/

/-- The milestone record built for each input amount (lib.rs 242-248). -/
def mkMilestone (amount : Int) : Milestone :=
  { description := "milestone", amount := amount, status := .NotStarted,
    submitted_at := none, approved_at := none }

/-- The validation loop of create (lib.rs 223-230): each amount must be
positive, and the running total is accumulated with i128 checked_add. -/
def checkAmounts : Int → List Int → Except EscrowError Int
  | total, [] => .ok total
  | total, amount :: rest =>
    if amount ≤ 0 then .error .ZeroAmount
    else if total + amount > i128MAX ∨ total + amount < i128MIN then .error .InvalidMilestone
    else checkAmounts (total + amount) rest

def create (tf : TransferFn) (s : ContractState) (now : Nat)
    (depositor beneficiary arbiter : Address) (milestone_amounts : List Int)
    (token : Address) (duration : Nat) : Except EscrowError Nat × ContractState :=
  if beneficiary = depositor then (.error .InvalidBeneficiary, s)
  else if arbiter = depositor ∨ arbiter = beneficiary then (.error .InvalidArbiter, s)
  else if duration < MIN_DURATION ∨ duration > MAX_DURATION then (.error .InvalidDuration, s)
  else if milestone_amounts.isEmpty then (.error .InvalidMilestone, s)
  else
    match checkAmounts 0 milestone_amounts with
    | .error err => (.error err, s)
    | .ok total_amount =>
      -- deadline = now.checked_add(duration) on u64 (lib.rs 232-234)
      if now + duration > u64MAX then (.error .InvalidDeadline, s)
      else
        match acquire_lock s with
        | .error err => (.error err, s)
        | .ok s1 =>
          match peek_next_id s1 with
          | .error err => (.error err, s1)  -- propagated by `?` without releasing the lock
          | .ok id =>
            let milestones := milestone_amounts.map mkMilestone
            let escrow : EscrowData :=
              { depositor := depositor, beneficiary := beneficiary, arbiter := arbiter,
                token := token, total_amount := total_amount, paid_amount := 0,
                deadline := now + duration, status := .Pending,
                milestones := milestones, work_started := false }
            match tf token depositor current_contract_address total_amount with
            | .error _ => (.error .TransferFailed, release_lock s1)
            | .ok _ =>
              let s2 := finalize_counter (store_escrow s1 id escrow) id
              (.ok id, release_lock s2)

/-! ### start_work (lib.rs 286-320) -/

def start_work (s : ContractState) (caller : Address) (id : Nat) :
    Except EscrowError Unit × ContractState :=
  match acquire_lock s with
  | .error err => (.error err, s)
  | .ok s1 =>
    match load_escrow s1 id with
    | .error err => (.error err, s1)  -- propagated by `?` without releasing the lock
    | .ok escrow =>
      if caller ≠ escrow.beneficiary then (.error .NotAuthorized, release_lock s1)
      else if escrow.work_started then (.error .WorkStarted, release_lock s1)
      else if escrow.status ≠ .Pending then (.error .AlreadyCompleted, release_lock s1)
      else
        let escrow' := { escrow with work_started := true, status := .InProgress }
        (.ok (), release_lock (store_escrow s1 id escrow'))

/-! ### submit_milestone (lib.rs 323-371) -/

def submit_milestone (s : ContractState) (now : Nat) (caller : Address) (id : Nat)
    (milestone_index : Nat) : Except EscrowError Unit × ContractState :=
  match acquire_lock s with
  | .error err => (.error err, s)
  | .ok s1 =>
    match load_escrow s1 id with
    | .error err => (.error err, s1)  -- propagated by `?` without releasing the lock
    | .ok escrow =>
      if caller ≠ escrow.beneficiary then (.error .NotAuthorized, release_lock s1)
      else if escrow.status ≠ .InProgress then (.error .NotAuthorized, release_lock s1)
      else if h : milestone_index ≥ escrow.milestones.length then
        (.error .InvalidMilestone, release_lock s1)
      else
        let milestone := escrow.milestones.get ⟨milestone_index, by omega⟩
        if milestone.status ≠ .NotStarted then
          (.error .MilestoneAlreadySubmitted, release_lock s1)
        else
          let milestone' := { milestone with status := .Submitted, submitted_at := some now }
          let escrow' := { escrow with
            milestones := escrow.milestones.set milestone_index milestone' }
          (.ok (), release_lock (store_escrow s1 id escrow'))

/-! ### approve_milestone (lib.rs 374-435); note that the updated record is
persisted (lib.rs 410) before the transfer is attempted (lib.rs 413). -/

def approve_milestone (tf : TransferFn) (s : ContractState) (now : Nat) (caller : Address)
    (id : Nat) (milestone_index : Nat) : Except EscrowError Unit × ContractState :=
  match acquire_lock s with
  | .error err => (.error err, s)
  | .ok s1 =>
    match load_escrow s1 id with
    | .error err => (.error err, s1)  -- propagated by `?` without releasing the lock
    | .ok escrow =>
      if caller ≠ escrow.depositor then (.error .NotAuthorized, release_lock s1)
      else if h : milestone_index ≥ escrow.milestones.length then
        (.error .InvalidMilestone, release_lock s1)
      else
        let milestone := escrow.milestones.get ⟨milestone_index, by omega⟩
        if milestone.status ≠ .Submitted then
          (.error .MilestoneNotSubmitted, release_lock s1)
        else
          let milestone' := { milestone with status := .Approved, approved_at := some now }
          let amount := milestone.amount
          let escrow' := { escrow with
            milestones := escrow.milestones.set milestone_index milestone',
            paid_amount := escrow.paid_amount + amount }
          let s2 := store_escrow s1 id escrow'
          match tf escrow.token current_contract_address escrow.beneficiary amount with
          | .error _ => (.error .TransferFailed, release_lock s2)
          | .ok _ => (.ok (), release_lock s2)

/-! ### dispute_milestone (lib.rs 438-474) -/

def dispute_milestone (s : ContractState) (caller : Address) (id : Nat)
    (milestone_index : Nat) : Except EscrowError Unit × ContractState :=
  match acquire_lock s with
  | .error err => (.error err, s)
  | .ok s1 =>
    match load_escrow s1 id with
    | .error err => (.error err, s1)  -- propagated by `?` without releasing the lock
    | .ok escrow =>
      if caller ≠ escrow.depositor then (.error .NotAuthorized, release_lock s1)
      else if h : milestone_index ≥ escrow.milestones.length then
        (.error .InvalidMilestone, release_lock s1)
      else
        let milestone := escrow.milestones.get ⟨milestone_index, by omega⟩
        if milestone.status ≠ .Submitted then
          (.error .MilestoneNotSubmitted, release_lock s1)
        else
          let milestone' := { milestone with status := .Disputed }
          let escrow' := { escrow with
            milestones := escrow.milestones.set milestone_index milestone',
            status := .Disputed }
          (.ok (), release_lock (store_escrow s1 id escrow'))

/-! ### resolve_milestone_dispute (lib.rs 477-545); both transfers are
invoked with `?`, so their errors propagate without releasing the lock. -/

def resolve_milestone_dispute (tf : TransferFn) (s : ContractState) (caller : Address)
    (id : Nat) (milestone_index : Nat) (pay_to_beneficiary : Int) :
    Except EscrowError Unit × ContractState :=
  match acquire_lock s with
  | .error err => (.error err, s)
  | .ok s1 =>
    match load_escrow s1 id with
    | .error err => (.error err, s1)  -- propagated by `?` without releasing the lock
    | .ok escrow =>
      if caller ≠ escrow.arbiter then (.error .NotAuthorized, release_lock s1)
      else if h : milestone_index ≥ escrow.milestones.length then
        (.error .InvalidMilestone, release_lock s1)
      else
        let milestone := escrow.milestones.get ⟨milestone_index, by omega⟩
        if milestone.status ≠ .Disputed then (.error .NotAuthorized, release_lock s1)
        else
          let milestone_amount := milestone.amount
          if pay_to_beneficiary < 0 ∨ pay_to_beneficiary > milestone_amount then
            (.error .InvalidMilestone, release_lock s1)
          else
            match (if pay_to_beneficiary > 0 then
                    tf escrow.token current_contract_address escrow.beneficiary
                      pay_to_beneficiary
                  else .ok ()) with
            | .error err => (.error err, s1)  -- `?`: lock not released
            | .ok _ =>
              let escrow1 :=
                if pay_to_beneficiary > 0 then
                  { escrow with paid_amount := escrow.paid_amount + pay_to_beneficiary }
                else escrow
              let refundAmt := milestone_amount - pay_to_beneficiary
              match (if refundAmt > 0 then
                      tf escrow.token current_contract_address escrow.depositor refundAmt
                    else .ok ()) with
              | .error err => (.error err, s1)  -- `?`: lock not released
              | .ok _ =>
                let milestone' := { milestone with status := .Approved }
                let escrow2 := { escrow1 with
                  milestones := escrow1.milestones.set milestone_index milestone',
                  status := .InProgress }
                (.ok (), release_lock (store_escrow s1 id escrow2))

/-! ### refund (lib.rs 548-594); the Refunded record is persisted
(lib.rs 576) before the transfer is attempted (lib.rs 579). -/

def refund (tf : TransferFn) (s : ContractState) (now : Nat) (caller : Address) (id : Nat) :
    Except EscrowError Unit × ContractState :=
  match acquire_lock s with
  | .error err => (.error err, s)
  | .ok s1 =>
    match load_escrow s1 id with
    | .error err => (.error err, s1)  -- propagated by `?` without releasing the lock
    | .ok escrow =>
      if caller ≠ escrow.depositor then (.error .NotAuthorized, release_lock s1)
      else if escrow.work_started then (.error .WorkStarted, release_lock s1)
      else if escrow.status ≠ .Pending then (.error .AlreadyCompleted, release_lock s1)
      else if now ≥ escrow.deadline then (.error .NotAuthorized, release_lock s1)
      else
        let escrow' := { escrow with status := .Refunded }
        let s2 := store_escrow s1 id escrow'
        let refund_amount := escrow.total_amount - escrow.paid_amount
        match tf escrow.token current_contract_address escrow.depositor refund_amount with
        | .error _ => (.error .TransferFailed, release_lock s2)
        | .ok _ => (.ok (), release_lock s2)

/-! ### Read operations (lib.rs 596-602) -/

def get_escrow (s : ContractState) (id : Nat) : Except EscrowError EscrowData :=
  load_escrow s id

def next_id (s : ContractState) : Except EscrowError Nat :=
  peek_next_id s

/-! ### Sums over milestone lists, used to state the accounting invariants -/

def intSum : List Int → Int
  | [] => 0
  | a :: rest => a + intSum rest

def amountSum : List Milestone → Int
  | [] => 0
  | m :: rest => m.amount + amountSum rest

def approvedSum : List Milestone → Int
  | [] => 0
  | m :: rest => (if m.status = MilestoneStatus.Approved then m.amount else 0) + approvedSum rest

/-- The inductive invariant maintained by every operation for every stored
escrow record. -/
structure EscrowInv (e : EscrowData) : Prop where
  paid_nonneg : 0 ≤ e.paid_amount
  paid_le_approved : e.paid_amount ≤ approvedSum e.milestones
  total_eq : e.total_amount = amountSum e.milestones
  amounts_pos : ∀ m ∈ e.milestones, 0 < m.amount
  ws_iff : e.work_started = true ↔ (e.status = .InProgress ∨ e.status = .Disputed)
  pending_fresh : e.status = .Pending ∨ e.status = .Refunded →
    ∀ m ∈ e.milestones, m.status = .NotStarted
  not_released : e.status ≠ .Released

/-- Every stored record satisfies the invariant and no stored id exceeds the
allocator counter. -/
def StateInv (s : ContractState) : Prop :=
  ∀ id e, lookupE s.escrows id = some e → EscrowInv e ∧ id ≤ s.counter

/-- How one guarded operation may change the stored data: it leaves the
escrow map and counter alone, rewrites one existing record (invariant and
paid-amount monotonicity preserved), or allocates the fresh id counter+1. -/
def StepPost (s s' : ContractState) : Prop :=
  (s'.escrows = s.escrows ∧ s'.counter = s.counter)
  ∨ (∃ id0 old new, lookupE s.escrows id0 = some old ∧
      s'.escrows = setE s.escrows id0 new ∧ s'.counter = s.counter ∧
      (EscrowInv old → EscrowInv new ∧ old.paid_amount ≤ new.paid_amount))
  ∨ (∃ enew, s'.escrows = setE s.escrows (s.counter + 1) enew ∧
      s'.counter = s.counter + 1 ∧ EscrowInv enew ∧
      lookupE s.escrows (s.counter + 1) = none)

/-- One invocation of a public mutating operation of the deployed contract
(transfers performed through safe_transfer), successful or not, with
arbitrary caller, arguments and clock reading. -/
inductive Step : ContractState → ContractState → Prop where
  | create_s : ∀ (s : ContractState) (now : Nat) (dep ben arb : Address)
      (amts : List Int) (tok : Address) (dur : Nat),
      Step s (create safe_transfer s now dep ben arb amts tok dur).2
  | start_work_s : ∀ (s : ContractState) (caller : Address) (id : Nat),
      Step s (start_work s caller id).2
  | submit_s : ∀ (s : ContractState) (now : Nat) (caller : Address) (id mi : Nat),
      Step s (submit_milestone s now caller id mi).2
  | approve_s : ∀ (s : ContractState) (now : Nat) (caller : Address) (id mi : Nat),
      Step s (approve_milestone safe_transfer s now caller id mi).2
  | dispute_s : ∀ (s : ContractState) (caller : Address) (id mi : Nat),
      Step s (dispute_milestone s caller id mi).2
  | resolve_s : ∀ (s : ContractState) (caller : Address) (id mi : Nat) (pay : Int),
      Step s (resolve_milestone_dispute safe_transfer s caller id mi pay).2
  | refund_s : ∀ (s : ContractState) (now : Nat) (caller : Address) (id : Nat),
      Step s (refund safe_transfer s now caller id).2

/-- The contract states reachable from deployment by any sequence of public
operations. -/
inductive Reach : ContractState → Prop where
  | init : Reach initState
  | step : ∀ {s s' : ContractState}, Reach s → Step s s' → Reach s'

/-! ### First-violation predicates for the create validation scan -/

/-- Scanning the amounts left to right, position k holds the first violation
and it is a non-positive amount: every earlier amount is positive and the
running sum has not yet overflowed i128. -/
def firstBadIsNonPositive (amts : List Int) : Prop :=
  ∃ k, k < amts.length ∧ amts.getD k 0 ≤ 0 ∧ (∀ j, j < k → 0 < amts.getD j 0) ∧
    intSum (amts.take k) ≤ i128MAX

/-- Scanning the amounts left to right, position k holds the first violation
and it is an i128 overflow of the running sum: every amount up to k is
positive, the sum before k is still in range, and adding amount k
overflows. -/
def firstBadIsOverflow (amts : List Int) : Prop :=
  ∃ k, k < amts.length ∧ (∀ j, j ≤ k → 0 < amts.getD j 0) ∧
    intSum (amts.take k) ≤ i128MAX ∧ i128MAX < intSum (amts.take (k + 1))

/-! ### Concrete scenario states used by counterexamples and witnesses -/

/-- A one-milestone escrow created from the initial state: milestone list
[5], depositor 0, beneficiary 1, arbiter 2, token 3, duration 3600, at
time 0. -/
def sCreated : ContractState :=
  (create safe_transfer initState 0 0 1 2 [5] 3 3600).2

/-- sCreated after the beneficiary starts work. -/
def sStarted : ContractState := (start_work sCreated 1 1).2

/-- sStarted after the beneficiary submits milestone 0 at time 10. -/
def sSubmitted : ContractState := (submit_milestone sStarted 10 1 1 0).2

/-- sCreated after the depositor refunds at time 10 (before the deadline). -/
def sRefunded : ContractState := (refund safe_transfer sCreated 10 0 1).2

/-- The escrow record stored at id 1 in sCreated. -/
def eCreated : EscrowData :=
  { depositor := 0, beneficiary := 1, arbiter := 2, token := 3,
    total_amount := 5, paid_amount := 0, deadline := 3600,
    status := .Pending, milestones := [mkMilestone 5], work_started := false }

/-- The escrow record stored at id 1 in sStarted. -/
def eStarted : EscrowData :=
  { eCreated with status := .InProgress, work_started := true }

/-- The milestone record of eSubmitted: submitted at time 10. -/
def mSubmitted : Milestone :=
  { description := "milestone", amount := 5, status := .Submitted,
    submitted_at := some 10, approved_at := none }

/-- The escrow record stored at id 1 in sSubmitted. -/
def eSubmitted : EscrowData :=
  { eCreated with
    status := .InProgress, work_started := true, milestones := [mSubmitted] }

/-- The escrow record stored at id 1 in sRefunded. -/
def eRefunded : EscrowData := { eCreated with status := .Refunded }

/-- mSubmitted after approval at time 20. -/
def mApproved : Milestone :=
  { mSubmitted with status := .Approved, approved_at := some 20 }

/-- The escrow record persisted by approve_milestone on sSubmitted at time
20: paid_amount advanced to 5 and milestone 0 Approved. -/
def eApproved : EscrowData :=
  { eSubmitted with paid_amount := 5, milestones := [mApproved] }

/-- A state whose allocator counter has reached the u32 maximum. -/
def sCounterMax : ContractState := { escrows := [], counter := u32MAX, lock := false }

/-- Whether a result is the TransferFailed error. -/
def returnsTransferFailed {α : Type} (r : Except EscrowError α) : Bool :=
  match r with
  | .error .TransferFailed => true
  | _ => false

end StellaPay


namespace StellaPay

/-! ### Lemmas about the storage association list -/

theorem lookupE_setE_self (l : List (Nat × EscrowData)) (id : Nat) (e : EscrowData) :
    lookupE (setE l id e) id = some e := by
  induction l with
  | nil => simp [setE, lookupE]
  | cons kv rest ih =>
    obtain ⟨k, v⟩ := kv
    by_cases h : k = id
    · simp [setE, h, lookupE]
    · simp [setE, h, lookupE, ih]

theorem lookupE_setE_ne (l : List (Nat × EscrowData)) (id id' : Nat) (e : EscrowData)
    (h : id' ≠ id) : lookupE (setE l id e) id' = lookupE l id' := by
  induction l with
  | nil => simp [setE, lookupE, Ne.symm h]
  | cons kv rest ih =>
    obtain ⟨k, v⟩ := kv
    by_cases hk : k = id
    · subst hk
      simp [setE, lookupE, Ne.symm h]
    · simp [setE, hk, lookupE, ih]

/-! ### Lemmas about the sums -/

theorem intSum_nonneg (amts : List Int) (h : ∀ a ∈ amts, 0 < a) : 0 ≤ intSum amts := by
  induction amts with
  | nil => simp [intSum]
  | cons a rest ih =>
    have ha := h a (by simp)
    have := ih (fun b hb => h b (by simp [hb]))
    simp only [intSum]
    omega

theorem amountSum_map_mk (amts : List Int) :
    amountSum (amts.map mkMilestone) = intSum amts := by
  induction amts with
  | nil => simp [amountSum, intSum]
  | cons a rest ih => simp [amountSum, intSum, mkMilestone, ih]

theorem approvedSum_map_mk (amts : List Int) :
    approvedSum (amts.map mkMilestone) = 0 := by
  induction amts with
  | nil => simp [approvedSum]
  | cons a rest ih => simp [approvedSum, mkMilestone, ih]

theorem approvedSum_le_amountSum (l : List Milestone) (h : ∀ m ∈ l, 0 < m.amount) :
    approvedSum l ≤ amountSum l := by
  induction l with
  | nil => simp [approvedSum, amountSum]
  | cons m rest ih =>
    have hm : 0 < m.amount := h m (List.mem_cons_self m rest)
    have hr : approvedSum rest ≤ amountSum rest :=
      ih (fun m' hm' => h m' (List.mem_cons_of_mem m hm'))
    simp only [approvedSum, amountSum]
    by_cases hs : m.status = MilestoneStatus.Approved
    · rw [if_pos hs]
      exact add_le_add_left hr m.amount
    · rw [if_neg hs]
      linarith

theorem amountSum_set (l : List Milestone) (k : Nat) (m' : Milestone) (hk : k < l.length)
    (ha : m'.amount = (l.get ⟨k, hk⟩).amount) :
    amountSum (l.set k m') = amountSum l := by
  induction l generalizing k with
  | nil => simp at hk
  | cons m rest ih =>
    cases k with
    | zero => simp_all [List.set, amountSum]
    | succ k' =>
      simp only [List.set, amountSum]
      rw [ih k' (by simpa using hk) (by simpa using ha)]

theorem approvedSum_set_not_approved (l : List Milestone) (k : Nat) (m' : Milestone)
    (hk : k < l.length) (hold : (l.get ⟨k, hk⟩).status ≠ .Approved)
    (hnew : m'.status ≠ .Approved) :
    approvedSum (l.set k m') = approvedSum l := by
  induction l generalizing k with
  | nil => simp at hk
  | cons m rest ih =>
    cases k with
    | zero => simp_all [List.set, approvedSum]
    | succ k' =>
      simp only [List.set, approvedSum]
      rw [ih k' (by simpa using hk) (by simpa using hold)]

theorem approvedSum_set_approve (l : List Milestone) (k : Nat) (m' : Milestone)
    (hk : k < l.length) (hold : (l.get ⟨k, hk⟩).status ≠ .Approved)
    (hnew : m'.status = .Approved) (ha : m'.amount = (l.get ⟨k, hk⟩).amount) :
    approvedSum (l.set k m') = approvedSum l + m'.amount := by
  induction l generalizing k with
  | nil => simp at hk
  | cons m rest ih =>
    cases k with
    | zero =>
      simp only [List.get] at hold ha
      simp only [List.set, approvedSum, hnew, if_true, if_neg hold]
      ring
    | succ k' =>
      simp only [List.set, approvedSum]
      rw [ih k' (by simpa using hk) (by simpa using hold) (by simpa using ha)]
      ring

theorem mem_of_mem_setE (l : List Milestone) (k : Nat) (m' m : Milestone)
    (h : m ∈ l.set k m') : m = m' ∨ m ∈ l := by
  induction l generalizing k with
  | nil => simp [List.set] at h
  | cons a rest ih =>
    cases k with
    | zero =>
      simp only [List.set] at h
      rcases List.mem_cons.mp h with h1 | h1
      · exact Or.inl h1
      · exact Or.inr (List.mem_cons.mpr (Or.inr h1))
    | succ k' =>
      simp only [List.set] at h
      rcases List.mem_cons.mp h with h1 | h1
      · exact Or.inr (List.mem_cons.mpr (Or.inl h1))
      · rcases ih k' h1 with h2 | h2
        · exact Or.inl h2
        · exact Or.inr (List.mem_cons.mpr (Or.inr h2))

theorem status_of_mem_setE (l : List Milestone) (k : Nat) (m' m : Milestone)
    (h : m ∈ l.set k m') (hall : ∀ m0 ∈ l, m0.status = .NotStarted)
    (hnew : m'.status = .NotStarted) : m.status = .NotStarted := by
  rcases mem_of_mem_setE l k m' m h with h1 | h1
  · rw [h1]; exact hnew
  · exact hall m h1

end StellaPay

namespace StellaPay

/-! ### Characterisation of the create validation scan -/

theorem intSum_take_nonneg (l : List Int) (k : Nat) (h : ∀ j, j < k → 0 < l.getD j 0) :
    0 ≤ intSum (l.take k) := by
  induction l generalizing k with
  | nil => cases k <;> simp [intSum]
  | cons a rest ih =>
    cases k with
    | zero => simp [intSum]
    | succ k' =>
      have ha : 0 < a := by simpa using h 0 (Nat.succ_pos k')
      have hr := ih k' (fun j hj => by simpa using h (j + 1) (by omega))
      simp only [List.take_succ_cons, intSum]
      omega

theorem checkAmounts_ok_facts (amts : List Int) (t total : Int)
    (h : checkAmounts t amts = .ok total) :
    (∀ a ∈ amts, 0 < a) ∧ total = t + intSum amts := by
  induction amts generalizing t with
  | nil =>
    simp only [checkAmounts] at h
    injection h with h
    simp [intSum, h]
  | cons a rest ih =>
    simp only [checkAmounts] at h
    by_cases h1 : a ≤ 0
    · rw [if_pos h1] at h; exact absurd h (by simp)
    · rw [if_neg h1] at h
      by_cases h2 : t + a > i128MAX ∨ t + a < i128MIN
      · rw [if_pos h2] at h; exact absurd h (by simp)
      · rw [if_neg h2] at h
        obtain ⟨hall, htot⟩ := ih (t + a) h
        refine ⟨?_, ?_⟩
        · intro b hb
          rcases List.mem_cons.mp hb with rfl | hb
          · omega
          · exact hall b hb
        · simp only [intSum]
          omega

theorem checkAmounts_all_ok (amts : List Int) (t : Int) (hpos : ∀ a ∈ amts, 0 < a)
    (ht : 0 ≤ t) (hsum : t + intSum amts ≤ i128MAX) :
    checkAmounts t amts = .ok (t + intSum amts) := by
  induction amts generalizing t with
  | nil => simp [checkAmounts, intSum]
  | cons a rest ih =>
    have ha : 0 < a := hpos a (List.mem_cons_self a rest)
    have hrest : ∀ b ∈ rest, 0 < b := fun b hb => hpos b (List.mem_cons_of_mem a hb)
    have hr : 0 ≤ intSum rest := intSum_nonneg rest hrest
    have hMIN : i128MIN ≤ 0 := by decide
    simp only [checkAmounts, intSum] at hsum ⊢
    rw [if_neg (show ¬ a ≤ 0 by omega)]
    rw [if_neg (show ¬ (t + a > i128MAX ∨ t + a < i128MIN) by push_neg; omega)]
    rw [ih (t + a) hrest (by omega) (by omega)]
    congr 1
    ring

theorem checkAmounts_first_nonpos (amts : List Int) (t : Int) (k : Nat)
    (hk : k < amts.length) (hbad : amts.getD k 0 ≤ 0)
    (hpos : ∀ j, j < k → 0 < amts.getD j 0) (ht : 0 ≤ t)
    (hsum : t + intSum (amts.take k) ≤ i128MAX) :
    checkAmounts t amts = .error .ZeroAmount := by
  induction amts generalizing k t with
  | nil => simp at hk
  | cons a rest ih =>
    cases k with
    | zero =>
      simp only [List.getD_cons_zero] at hbad
      simp only [checkAmounts]
      rw [if_pos hbad]
    | succ k' =>
      have ha : 0 < a := by simpa using hpos 0 (Nat.succ_pos k')
      have htk : 0 ≤ intSum (rest.take k') :=
        intSum_take_nonneg rest k' (fun j hj => by simpa using hpos (j + 1) (by omega))
      have hMIN : i128MIN ≤ 0 := by decide
      simp only [List.take_succ_cons, intSum] at hsum
      simp only [checkAmounts]
      rw [if_neg (show ¬ a ≤ 0 by omega)]
      rw [if_neg (show ¬ (t + a > i128MAX ∨ t + a < i128MIN) by push_neg; omega)]
      exact ih (t + a) k' (by simpa using hk) (by simpa using hbad)
        (fun j hj => by simpa using hpos (j + 1) (by omega)) (by omega) (by omega)

theorem checkAmounts_first_overflow (amts : List Int) (t : Int) (k : Nat)
    (hk : k < amts.length) (hpos : ∀ j, j ≤ k → 0 < amts.getD j 0) (ht : 0 ≤ t)
    (hsum : t + intSum (amts.take k) ≤ i128MAX)
    (hover : i128MAX < t + intSum (amts.take (k + 1))) :
    checkAmounts t amts = .error .InvalidMilestone := by
  induction amts generalizing k t with
  | nil => simp at hk
  | cons a rest ih =>
    have ha : 0 < a := by simpa using hpos 0 (Nat.zero_le k)
    cases k with
    | zero =>
      simp only [List.take_succ_cons, List.take_zero, intSum] at hover
      simp only [checkAmounts]
      rw [if_neg (show ¬ a ≤ 0 by omega)]
      rw [if_pos (show t + a > i128MAX ∨ t + a < i128MIN by left; omega)]
    | succ k' =>
      have htk : 0 ≤ intSum (rest.take k') :=
        intSum_take_nonneg rest k'
          (fun j hj => by simpa using hpos (j + 1) (by omega))
      have hMIN : i128MIN ≤ 0 := by decide
      simp only [List.take_succ_cons, intSum] at hsum hover
      simp only [checkAmounts]
      rw [if_neg (show ¬ a ≤ 0 by omega)]
      rw [if_neg (show ¬ (t + a > i128MAX ∨ t + a < i128MIN) by push_neg; omega)]
      exact ih (t + a) k' (by simpa using hk)
        (fun j hj => by simpa using hpos (j + 1) (by omega)) (by omega) (by omega) (by omega)

/-! ### Escrow-level invariant preservation, one lemma per mutation -/

theorem escrowInv_create (amts : List Int) (total : Int)
    (hck : checkAmounts 0 amts = .ok total)
    (dep ben arb tok : Address) (dl : Nat) :
    EscrowInv { depositor := dep, beneficiary := ben, arbiter := arb, token := tok,
                total_amount := total, paid_amount := 0, deadline := dl,
                status := .Pending, milestones := amts.map mkMilestone,
                work_started := false } := by
  obtain ⟨hpos, htot⟩ := checkAmounts_ok_facts amts 0 total hck
  refine ⟨le_refl 0, ?_, ?_, ?_, ?_, ?_, ?_⟩
  · show (0 : Int) ≤ approvedSum (amts.map mkMilestone)
    rw [approvedSum_map_mk]
  · show total = amountSum (amts.map mkMilestone)
    rw [amountSum_map_mk]
    simpa using htot
  · intro m hm
    obtain ⟨a, ha, rfl⟩ := List.mem_map.mp hm
    simpa [mkMilestone] using hpos a ha
  · simp
  · intro _ m hm
    obtain ⟨a, ha, rfl⟩ := List.mem_map.mp hm
    simp [mkMilestone]
  · simp

theorem escrowInv_start_work (e : EscrowData) (hinv : EscrowInv e)
    (hp : e.status = .Pending) :
    EscrowInv { e with work_started := true, status := .InProgress } := by
  obtain ⟨h1, h2, h3, h4, h5, h6, h7⟩ := hinv
  exact ⟨h1, h2, h3, h4, by simp, by simp, by simp⟩

/-- Helper: a milestone that is not NotStarted forces the escrow into an
active status. -/
theorem status_active_of_milestone (e : EscrowData) (hinv : EscrowInv e) (k : Nat)
    (hk : k < e.milestones.length)
    (hst : (e.milestones.get ⟨k, hk⟩).status ≠ .NotStarted) :
    e.status = .InProgress ∨ e.status = .Disputed := by
  obtain ⟨_, _, _, _, _, h6, h7⟩ := hinv
  cases hs : e.status with
  | Pending =>
    exact absurd (h6 (by simp [hs]) _ (List.get_mem e.milestones k hk)) hst
  | Refunded =>
    exact absurd (h6 (by simp [hs]) _ (List.get_mem e.milestones k hk)) hst
  | Released => exact absurd hs h7
  | InProgress => exact Or.inl rfl
  | Disputed => exact Or.inr rfl

theorem escrowInv_submit (e : EscrowData) (k : Nat) (now : Nat) (hinv : EscrowInv e)
    (hk : k < e.milestones.length) (hip : e.status = .InProgress)
    (hns : (e.milestones.get ⟨k, hk⟩).status = .NotStarted) :
    EscrowInv { e with
      milestones := e.milestones.set k
        ({ e.milestones.get ⟨k, hk⟩ with status := .Submitted, submitted_at := some now }) } := by
  obtain ⟨h1, h2, h3, h4, h5, h6, h7⟩ := hinv
  refine ⟨h1, ?_, ?_, ?_, ?_, ?_, ?_⟩
  · show e.paid_amount ≤ approvedSum (e.milestones.set k
      { e.milestones.get ⟨k, hk⟩ with status := .Submitted, submitted_at := some now })
    rw [approvedSum_set_not_approved e.milestones k
      { e.milestones.get ⟨k, hk⟩ with status := .Submitted, submitted_at := some now }
      hk (by rw [hns]; decide) (by simp)]
    exact h2
  · show e.total_amount = amountSum (e.milestones.set k
      { e.milestones.get ⟨k, hk⟩ with status := .Submitted, submitted_at := some now })
    rw [amountSum_set e.milestones k
      { e.milestones.get ⟨k, hk⟩ with status := .Submitted, submitted_at := some now }
      hk rfl]
    exact h3
  · intro m hm
    rcases mem_of_mem_setE _ _ _ _ hm with rfl | hm2
    · show 0 < (e.milestones.get ⟨k, hk⟩).amount
      exact h4 _ (List.get_mem e.milestones k hk)
    · exact h4 m hm2
  · exact h5
  · intro hps
    have hps2 : e.status = .Pending ∨ e.status = .Refunded := hps
    rw [hip] at hps2
    rcases hps2 with h | h <;> exact absurd h (by decide)
  · exact h7

theorem escrowInv_approve (e : EscrowData) (k : Nat) (now : Nat) (hinv : EscrowInv e)
    (hk : k < e.milestones.length)
    (hsub : (e.milestones.get ⟨k, hk⟩).status = .Submitted) :
    EscrowInv { e with
      milestones := e.milestones.set k
        ({ e.milestones.get ⟨k, hk⟩ with status := .Approved, approved_at := some now }),
      paid_amount := e.paid_amount + (e.milestones.get ⟨k, hk⟩).amount } := by
  obtain ⟨h1, h2, h3, h4, h5, h6, h7⟩ := hinv
  have hampos : 0 < (e.milestones.get ⟨k, hk⟩).amount :=
    h4 _ (List.get_mem e.milestones k hk)
  refine ⟨?_, ?_, ?_, ?_, ?_, ?_, ?_⟩
  · show 0 ≤ e.paid_amount + (e.milestones.get ⟨k, hk⟩).amount
    omega
  · show e.paid_amount + (e.milestones.get ⟨k, hk⟩).amount ≤ approvedSum (e.milestones.set k
      { e.milestones.get ⟨k, hk⟩ with status := .Approved, approved_at := some now })
    rw [approvedSum_set_approve e.milestones k
      { e.milestones.get ⟨k, hk⟩ with status := .Approved, approved_at := some now }
      hk (by rw [hsub]; decide) (by simp) rfl]
    show e.paid_amount + (e.milestones.get ⟨k, hk⟩).amount ≤
      approvedSum e.milestones + (e.milestones.get ⟨k, hk⟩).amount
    omega
  · show e.total_amount = amountSum (e.milestones.set k
      { e.milestones.get ⟨k, hk⟩ with status := .Approved, approved_at := some now })
    rw [amountSum_set e.milestones k
      { e.milestones.get ⟨k, hk⟩ with status := .Approved, approved_at := some now }
      hk rfl]
    exact h3
  · intro m hm
    rcases mem_of_mem_setE _ _ _ _ hm with rfl | hm2
    · exact hampos
    · exact h4 m hm2
  · exact h5
  · intro hps
    have hps2 : e.status = .Pending ∨ e.status = .Refunded := hps
    exact absurd (h6 hps2 _ (List.get_mem e.milestones k hk)) (by rw [hsub]; decide)
  · exact h7

theorem escrowInv_dispute (e : EscrowData) (k : Nat) (hinv : EscrowInv e)
    (hk : k < e.milestones.length)
    (hsub : (e.milestones.get ⟨k, hk⟩).status = .Submitted) :
    EscrowInv { e with
      milestones := e.milestones.set k
        ({ e.milestones.get ⟨k, hk⟩ with status := .Disputed }),
      status := .Disputed } := by
  have hws : e.work_started = true :=
    hinv.ws_iff.mpr (status_active_of_milestone e hinv k hk (by rw [hsub]; decide))
  obtain ⟨h1, h2, h3, h4, h5, h6, h7⟩ := hinv
  refine ⟨h1, ?_, ?_, ?_, ?_, ?_, ?_⟩
  · show e.paid_amount ≤ approvedSum (e.milestones.set k
      { e.milestones.get ⟨k, hk⟩ with status := .Disputed })
    rw [approvedSum_set_not_approved e.milestones k
      { e.milestones.get ⟨k, hk⟩ with status := .Disputed }
      hk (by rw [hsub]; decide) (by simp)]
    exact h2
  · show e.total_amount = amountSum (e.milestones.set k
      { e.milestones.get ⟨k, hk⟩ with status := .Disputed })
    rw [amountSum_set e.milestones k
      { e.milestones.get ⟨k, hk⟩ with status := .Disputed } hk rfl]
    exact h3
  · intro m hm
    rcases mem_of_mem_setE _ _ _ _ hm with rfl | hm2
    · show 0 < (e.milestones.get ⟨k, hk⟩).amount
      exact h4 _ (List.get_mem e.milestones k hk)
    · exact h4 m hm2
  · show e.work_started = true ↔ (EscrowStatus.Disputed = .InProgress ∨
      EscrowStatus.Disputed = .Disputed)
    simp [hws]
  · intro hps
    have hps2 : EscrowStatus.Disputed = .Pending ∨ EscrowStatus.Disputed = .Refunded := hps
    rcases hps2 with h | h <;> exact absurd h (by decide)
  · show EscrowStatus.Disputed ≠ .Released
    decide

theorem escrowInv_resolve (e : EscrowData) (k : Nat) (pay newPaid : Int)
    (hinv : EscrowInv e) (hk : k < e.milestones.length)
    (hd : (e.milestones.get ⟨k, hk⟩).status = .Disputed)
    (hp0 : 0 ≤ pay) (hple : pay ≤ (e.milestones.get ⟨k, hk⟩).amount)
    (hnew : newPaid = e.paid_amount + pay) :
    EscrowInv { e with
      milestones := e.milestones.set k
        ({ e.milestones.get ⟨k, hk⟩ with status := .Approved }),
      paid_amount := newPaid,
      status := .InProgress } := by
  have hws : e.work_started = true :=
    hinv.ws_iff.mpr (status_active_of_milestone e hinv k hk (by rw [hd]; decide))
  obtain ⟨h1, h2, h3, h4, h5, h6, h7⟩ := hinv
  refine ⟨?_, ?_, ?_, ?_, ?_, ?_, ?_⟩
  · show (0 : Int) ≤ newPaid
    omega
  · show newPaid ≤ approvedSum (e.milestones.set k
      { e.milestones.get ⟨k, hk⟩ with status := .Approved })
    rw [approvedSum_set_approve e.milestones k
      { e.milestones.get ⟨k, hk⟩ with status := .Approved }
      hk (by rw [hd]; decide) (by simp) rfl]
    show newPaid ≤ approvedSum e.milestones + (e.milestones.get ⟨k, hk⟩).amount
    omega
  · show e.total_amount = amountSum (e.milestones.set k
      { e.milestones.get ⟨k, hk⟩ with status := .Approved })
    rw [amountSum_set e.milestones k
      { e.milestones.get ⟨k, hk⟩ with status := .Approved } hk rfl]
    exact h3
  · intro m hm
    rcases mem_of_mem_setE _ _ _ _ hm with rfl | hm2
    · show 0 < (e.milestones.get ⟨k, hk⟩).amount
      exact h4 _ (List.get_mem e.milestones k hk)
    · exact h4 m hm2
  · show e.work_started = true ↔ (EscrowStatus.InProgress = .InProgress ∨
      EscrowStatus.InProgress = .Disputed)
    simp [hws]
  · intro hps
    have hps2 : EscrowStatus.InProgress = .Pending ∨ EscrowStatus.InProgress = .Refunded := hps
    rcases hps2 with h | h <;> exact absurd h (by decide)
  · show EscrowStatus.InProgress ≠ .Released
    decide

theorem escrowInv_refund (e : EscrowData) (hinv : EscrowInv e)
    (hp : e.status = .Pending) :
    EscrowInv { e with status := .Refunded } := by
  have hws : e.work_started = false := by
    rcases Bool.eq_false_or_eq_true e.work_started with h | h
    · have h2 := hinv.ws_iff.mp h
      rw [hp] at h2
      rcases h2 with h3 | h3 <;> exact absurd h3 (by decide)
    · exact h
  obtain ⟨h1, h2, h3, h4, h5, h6, h7⟩ := hinv
  refine ⟨h1, h2, h3, h4, ?_, ?_, ?_⟩
  · show e.work_started = true ↔ (EscrowStatus.Refunded = .InProgress ∨
      EscrowStatus.Refunded = .Disputed)
    simp [hws]
  · intro _
    exact h6 (Or.inl hp)
  · show EscrowStatus.Refunded ≠ .Released
    decide

end StellaPay

namespace StellaPay

theorem stepPost_start_work (s : ContractState) (caller : Address) (id : Nat) :
    StepPost s (start_work s caller id).2 := by
  unfold start_work acquire_lock load_escrow
  by_cases hl : s.lock
  · rw [if_pos hl]
    exact Or.inl ⟨rfl, rfl⟩
  · rw [if_neg hl]
    cases hlk : lookupE s.escrows id with
    | none =>
      simp only [hlk]
      exact Or.inl ⟨rfl, rfl⟩
    | some escrow =>
      simp only [hlk]
      by_cases hc : caller ≠ escrow.beneficiary
      · rw [if_pos hc]
        exact Or.inl ⟨rfl, rfl⟩
      · rw [if_neg hc]
        by_cases hw : escrow.work_started
        · rw [if_pos hw]
          exact Or.inl ⟨rfl, rfl⟩
        · rw [if_neg hw]
          by_cases hp : escrow.status ≠ EscrowStatus.Pending
          · rw [if_pos hp]
            exact Or.inl ⟨rfl, rfl⟩
          · rw [if_neg hp]
            push_neg at hp
            refine Or.inr (Or.inl ⟨id, escrow,
              { escrow with work_started := true, status := .InProgress }, hlk, rfl, rfl, ?_⟩)
            intro hinv
            exact ⟨escrowInv_start_work escrow hinv hp, le_refl _⟩

theorem stepPost_submit (s : ContractState) (now : Nat) (caller : Address) (id mi : Nat) :
    StepPost s (submit_milestone s now caller id mi).2 := by
  unfold submit_milestone acquire_lock load_escrow
  by_cases hl : s.lock
  · rw [if_pos hl]
    exact Or.inl ⟨rfl, rfl⟩
  · rw [if_neg hl]
    cases hlk : lookupE s.escrows id with
    | none =>
      simp only [hlk]
      exact Or.inl ⟨rfl, rfl⟩
    | some escrow =>
      simp only [hlk]
      by_cases hc : caller ≠ escrow.beneficiary
      · rw [if_pos hc]
        exact Or.inl ⟨rfl, rfl⟩
      · rw [if_neg hc]
        by_cases hip : escrow.status ≠ EscrowStatus.InProgress
        · rw [if_pos hip]
          exact Or.inl ⟨rfl, rfl⟩
        · rw [if_neg hip]
          push_neg at hip
          by_cases hge : mi ≥ escrow.milestones.length
          · rw [dif_pos hge]
            exact Or.inl ⟨rfl, rfl⟩
          · rw [dif_neg hge]
            have hk : mi < escrow.milestones.length := by omega
            by_cases hns : (escrow.milestones.get ⟨mi, hk⟩).status ≠ MilestoneStatus.NotStarted
            · rw [if_pos hns]
              exact Or.inl ⟨rfl, rfl⟩
            · rw [if_neg hns]
              push_neg at hns
              refine Or.inr (Or.inl ⟨id, escrow, _, hlk, rfl, rfl, fun hinv => ?_⟩)
              exact ⟨escrowInv_submit escrow mi now hinv hk hip hns, le_refl _⟩

theorem stepPost_approve (tf : TransferFn) (s : ContractState) (now : Nat)
    (caller : Address) (id mi : Nat) :
    StepPost s (approve_milestone tf s now caller id mi).2 := by
  unfold approve_milestone acquire_lock load_escrow
  by_cases hl : s.lock
  · rw [if_pos hl]
    exact Or.inl ⟨rfl, rfl⟩
  · rw [if_neg hl]
    cases hlk : lookupE s.escrows id with
    | none =>
      simp only [hlk]
      exact Or.inl ⟨rfl, rfl⟩
    | some escrow =>
      simp only [hlk]
      by_cases hc : caller ≠ escrow.depositor
      · rw [if_pos hc]
        exact Or.inl ⟨rfl, rfl⟩
      · rw [if_neg hc]
        by_cases hge : mi ≥ escrow.milestones.length
        · rw [dif_pos hge]
          exact Or.inl ⟨rfl, rfl⟩
        · rw [dif_neg hge]
          have hk : mi < escrow.milestones.length := by omega
          by_cases hsub : (escrow.milestones.get ⟨mi, hk⟩).status ≠ MilestoneStatus.Submitted
          · rw [if_pos hsub]
            exact Or.inl ⟨rfl, rfl⟩
          · rw [if_neg hsub]
            push_neg at hsub
            have hpost : EscrowInv escrow → EscrowInv { escrow with
                milestones := escrow.milestones.set mi
                  ({ escrow.milestones.get ⟨mi, hk⟩ with
                      status := .Approved, approved_at := some now }),
                paid_amount := escrow.paid_amount +
                  (escrow.milestones.get ⟨mi, hk⟩).amount } ∧
                escrow.paid_amount ≤ escrow.paid_amount +
                  (escrow.milestones.get ⟨mi, hk⟩).amount := by
              intro hinv
              have hampos := hinv.amounts_pos _ (List.get_mem escrow.milestones mi hk)
              exact ⟨escrowInv_approve escrow mi now hinv hk hsub, by omega⟩
            cases htf : tf escrow.token current_contract_address escrow.beneficiary
                (escrow.milestones.get ⟨mi, hk⟩).amount with
            | error err =>
              simp only [htf]
              exact Or.inr (Or.inl ⟨id, escrow, _, hlk, rfl, rfl, hpost⟩)
            | ok u =>
              simp only [htf]
              exact Or.inr (Or.inl ⟨id, escrow, _, hlk, rfl, rfl, hpost⟩)

theorem stepPost_dispute (s : ContractState) (caller : Address) (id mi : Nat) :
    StepPost s (dispute_milestone s caller id mi).2 := by
  unfold dispute_milestone acquire_lock load_escrow
  by_cases hl : s.lock
  · rw [if_pos hl]
    exact Or.inl ⟨rfl, rfl⟩
  · rw [if_neg hl]
    cases hlk : lookupE s.escrows id with
    | none =>
      simp only [hlk]
      exact Or.inl ⟨rfl, rfl⟩
    | some escrow =>
      simp only [hlk]
      by_cases hc : caller ≠ escrow.depositor
      · rw [if_pos hc]
        exact Or.inl ⟨rfl, rfl⟩
      · rw [if_neg hc]
        by_cases hge : mi ≥ escrow.milestones.length
        · rw [dif_pos hge]
          exact Or.inl ⟨rfl, rfl⟩
        · rw [dif_neg hge]
          have hk : mi < escrow.milestones.length := by omega
          by_cases hsub : (escrow.milestones.get ⟨mi, hk⟩).status ≠ MilestoneStatus.Submitted
          · rw [if_pos hsub]
            exact Or.inl ⟨rfl, rfl⟩
          · rw [if_neg hsub]
            push_neg at hsub
            refine Or.inr (Or.inl ⟨id, escrow, _, hlk, rfl, rfl, fun hinv => ?_⟩)
            exact ⟨escrowInv_dispute escrow mi hinv hk hsub, le_refl _⟩

theorem stepPost_refund (tf : TransferFn) (s : ContractState) (now : Nat)
    (caller : Address) (id : Nat) :
    StepPost s (refund tf s now caller id).2 := by
  unfold refund acquire_lock load_escrow
  by_cases hl : s.lock
  · rw [if_pos hl]
    exact Or.inl ⟨rfl, rfl⟩
  · rw [if_neg hl]
    cases hlk : lookupE s.escrows id with
    | none =>
      simp only [hlk]
      exact Or.inl ⟨rfl, rfl⟩
    | some escrow =>
      simp only [hlk]
      by_cases hc : caller ≠ escrow.depositor
      · rw [if_pos hc]
        exact Or.inl ⟨rfl, rfl⟩
      · rw [if_neg hc]
        by_cases hw : escrow.work_started
        · rw [if_pos hw]
          exact Or.inl ⟨rfl, rfl⟩
        · rw [if_neg hw]
          by_cases hp : escrow.status ≠ EscrowStatus.Pending
          · rw [if_pos hp]
            exact Or.inl ⟨rfl, rfl⟩
          · rw [if_neg hp]
            push_neg at hp
            by_cases hd : now ≥ escrow.deadline
            · rw [if_pos hd]
              exact Or.inl ⟨rfl, rfl⟩
            · rw [if_neg hd]
              have hpost : EscrowInv escrow →
                  EscrowInv { escrow with status := EscrowStatus.Refunded } ∧
                  escrow.paid_amount ≤
                    ({ escrow with status := EscrowStatus.Refunded } : EscrowData).paid_amount :=
                fun hinv => ⟨escrowInv_refund escrow hinv hp, le_refl _⟩
              cases htf : tf escrow.token current_contract_address escrow.depositor
                  (escrow.total_amount - escrow.paid_amount) with
              | error err =>
                simp only [htf]
                exact Or.inr (Or.inl ⟨id, escrow, _, hlk, rfl, rfl, hpost⟩)
              | ok u =>
                simp only [htf]
                exact Or.inr (Or.inl ⟨id, escrow, _, hlk, rfl, rfl, hpost⟩)

theorem stepPost_resolve (tf : TransferFn) (s : ContractState) (caller : Address)
    (id mi : Nat) (pay : Int) :
    StepPost s (resolve_milestone_dispute tf s caller id mi pay).2 := by
  unfold resolve_milestone_dispute acquire_lock load_escrow
  by_cases hl : s.lock
  · rw [if_pos hl]
    exact Or.inl ⟨rfl, rfl⟩
  · rw [if_neg hl]
    cases hlk : lookupE s.escrows id with
    | none =>
      simp only [hlk]
      exact Or.inl ⟨rfl, rfl⟩
    | some escrow =>
      simp only [hlk]
      by_cases hc : caller ≠ escrow.arbiter
      · rw [if_pos hc]
        exact Or.inl ⟨rfl, rfl⟩
      · rw [if_neg hc]
        by_cases hge : mi ≥ escrow.milestones.length
        · rw [dif_pos hge]
          exact Or.inl ⟨rfl, rfl⟩
        · rw [dif_neg hge]
          have hk : mi < escrow.milestones.length := by omega
          by_cases hd : (escrow.milestones.get ⟨mi, hk⟩).status ≠ MilestoneStatus.Disputed
          · rw [if_pos hd]
            exact Or.inl ⟨rfl, rfl⟩
          · rw [if_neg hd]
            push_neg at hd
            by_cases hrange : pay < 0 ∨ pay > (escrow.milestones.get ⟨mi, hk⟩).amount
            · rw [if_pos hrange]
              exact Or.inl ⟨rfl, rfl⟩
            · rw [if_neg hrange]
              push_neg at hrange
              obtain ⟨hp0, hple⟩ := hrange
              by_cases hpay : pay > 0
              · rw [if_pos hpay, if_pos hpay]
                cases htf1 : tf escrow.token current_contract_address escrow.beneficiary pay with
                | error err =>
                  simp only [htf1]
                  exact Or.inl ⟨rfl, rfl⟩
                | ok u =>
                  simp only [htf1]
                  by_cases hra : (escrow.milestones.get ⟨mi, hk⟩).amount - pay > 0
                  · rw [if_pos hra]
                    cases htf2 : tf escrow.token current_contract_address escrow.depositor
                        ((escrow.milestones.get ⟨mi, hk⟩).amount - pay) with
                    | error err =>
                      simp only [htf2]
                      exact Or.inl ⟨rfl, rfl⟩
                    | ok u2 =>
                      simp only [htf2]
                      refine Or.inr (Or.inl ⟨id, escrow, _, hlk, rfl, rfl, fun hinv => ?_⟩)
                      refine ⟨escrowInv_resolve escrow mi pay (escrow.paid_amount + pay)
                        hinv hk hd hp0 hple rfl, ?_⟩
                      show escrow.paid_amount ≤ escrow.paid_amount + pay
                      omega
                  · rw [if_neg hra]
                    refine Or.inr (Or.inl ⟨id, escrow, _, hlk, rfl, rfl, fun hinv => ?_⟩)
                    refine ⟨escrowInv_resolve escrow mi pay (escrow.paid_amount + pay)
                      hinv hk hd hp0 hple rfl, ?_⟩
                    show escrow.paid_amount ≤ escrow.paid_amount + pay
                    omega
              · rw [if_neg hpay, if_neg hpay]
                by_cases hra : (escrow.milestones.get ⟨mi, hk⟩).amount - pay > 0
                · rw [if_pos hra]
                  cases htf2 : tf escrow.token current_contract_address escrow.depositor
                      ((escrow.milestones.get ⟨mi, hk⟩).amount - pay) with
                  | error err =>
                    simp only [htf2]
                    exact Or.inl ⟨rfl, rfl⟩
                  | ok u2 =>
                    simp only [htf2]
                    refine Or.inr (Or.inl ⟨id, escrow, _, hlk, rfl, rfl, fun hinv => ?_⟩)
                    refine ⟨escrowInv_resolve escrow mi pay escrow.paid_amount
                      hinv hk hd hp0 hple (by omega), le_refl _⟩
                · rw [if_neg hra]
                  refine Or.inr (Or.inl ⟨id, escrow, _, hlk, rfl, rfl, fun hinv => ?_⟩)
                  refine ⟨escrowInv_resolve escrow mi pay escrow.paid_amount
                    hinv hk hd hp0 hple (by omega), le_refl _⟩

theorem stepPost_create (tf : TransferFn) (s : ContractState) (now : Nat)
    (dep ben arb : Address) (amts : List Int) (tok : Address) (dur : Nat)
    (hs : StateInv s) :
    StepPost s (create tf s now dep ben arb amts tok dur).2 := by
  unfold create acquire_lock peek_next_id
  by_cases h1 : ben = dep
  · rw [if_pos h1]
    exact Or.inl ⟨rfl, rfl⟩
  · rw [if_neg h1]
    by_cases h2 : arb = dep ∨ arb = ben
    · rw [if_pos h2]
      exact Or.inl ⟨rfl, rfl⟩
    · rw [if_neg h2]
      by_cases h3 : dur < MIN_DURATION ∨ dur > MAX_DURATION
      · rw [if_pos h3]
        exact Or.inl ⟨rfl, rfl⟩
      · rw [if_neg h3]
        by_cases h4 : amts.isEmpty
        · rw [if_pos h4]
          exact Or.inl ⟨rfl, rfl⟩
        · rw [if_neg h4]
          cases hck : checkAmounts 0 amts with
          | error err =>
            simp only [hck]
            exact Or.inl ⟨rfl, rfl⟩
          | ok total =>
            simp only [hck]
            by_cases h5 : now + dur > u64MAX
            · rw [if_pos h5]
              exact Or.inl ⟨rfl, rfl⟩
            · rw [if_neg h5]
              by_cases hl : s.lock
              · rw [if_pos hl]
                exact Or.inl ⟨rfl, rfl⟩
              · rw [if_neg hl]
                dsimp only
                by_cases h6 : s.counter + 1 > u32MAX
                · rw [if_pos h6]
                  exact Or.inl ⟨rfl, rfl⟩
                · rw [if_neg h6]
                  cases htf : tf tok dep current_contract_address total with
                  | error err =>
                    simp only [htf]
                    exact Or.inl ⟨rfl, rfl⟩
                  | ok u =>
                    simp only [htf]
                    refine Or.inr (Or.inr ⟨_, rfl, rfl,
                      escrowInv_create amts total hck dep ben arb tok (now + dur), ?_⟩)
                    cases hnone : lookupE s.escrows (s.counter + 1) with
                    | none => rfl
                    | some e0 =>
                      have hb := (hs _ _ hnone).2
                      omega

theorem stepPost_of_step (s s' : ContractState) (hs : StateInv s) (h : Step s s') :
    StepPost s s' := by
  cases h <;>
    first
      | exact stepPost_create safe_transfer _ _ _ _ _ _ _ _ hs
      | exact stepPost_start_work _ _ _
      | exact stepPost_submit _ _ _ _ _
      | exact stepPost_approve safe_transfer _ _ _ _ _
      | exact stepPost_dispute _ _ _ _
      | exact stepPost_resolve safe_transfer _ _ _ _ _
      | exact stepPost_refund safe_transfer _ _ _ _

theorem stateInv_preserved (s s' : ContractState) (hs : StateInv s) (hp : StepPost s s') :
    StateInv s' := by
  rcases hp with ⟨he, hc⟩ | ⟨id0, old, new, hold, he, hc, himp⟩ | ⟨enew, he, hc, hinv, hnone⟩
  · intro id e hle
    rw [he] at hle
    exact ⟨(hs id e hle).1, by rw [hc]; exact (hs id e hle).2⟩
  · intro id e hle
    rw [he] at hle
    by_cases hid : id = id0
    · subst hid
      rw [lookupE_setE_self] at hle
      injection hle with hle2
      subst hle2
      exact ⟨(himp (hs _ old hold).1).1, by rw [hc]; exact (hs _ old hold).2⟩
    · rw [lookupE_setE_ne _ _ _ _ hid] at hle
      exact ⟨(hs id e hle).1, by rw [hc]; exact (hs id e hle).2⟩
  · intro id e hle
    rw [he] at hle
    by_cases hid : id = s.counter + 1
    · subst hid
      rw [lookupE_setE_self] at hle
      injection hle with hle2
      subst hle2
      exact ⟨hinv, by rw [hc]⟩
    · rw [lookupE_setE_ne _ _ _ _ hid] at hle
      refine ⟨(hs id e hle).1, ?_⟩
      have h2 := (hs id e hle).2
      rw [hc]
      omega

theorem reach_stateInv (s : ContractState) (h : Reach s) : StateInv s := by
  induction h with
  | init =>
    intro id e hle
    simp [initState, lookupE] at hle
  | step hr hstep ih => exact stateInv_preserved _ _ ih (stepPost_of_step _ _ ih hstep)

theorem paid_mono_of_stepPost (s s' : ContractState) (hs : StateInv s) (hp : StepPost s s')
    (id : Nat) (e e' : EscrowData) (hle : lookupE s.escrows id = some e)
    (hle' : lookupE s'.escrows id = some e') : e.paid_amount ≤ e'.paid_amount := by
  rcases hp with ⟨he, _⟩ | ⟨id0, old, new, hold, he, _, himp⟩ | ⟨enew, he, hc, hinv, hnone⟩
  · rw [he, hle] at hle'
    injection hle' with h2
    rw [h2]
  · rw [he] at hle'
    by_cases hid : id = id0
    · subst hid
      rw [lookupE_setE_self] at hle'
      injection hle' with h2
      rw [hold] at hle
      injection hle with h3
      rw [← h2, ← h3]
      exact (himp (hs _ old hold).1).2
    · rw [lookupE_setE_ne _ _ _ _ hid, hle] at hle'
      injection hle' with h2
      rw [h2]
  · rw [he] at hle'
    by_cases hid : id = s.counter + 1
    · subst hid
      rw [hnone] at hle
      exact absurd hle (by simp)
    · rw [lookupE_setE_ne _ _ _ _ hid, hle] at hle'
      injection hle' with h2
      rw [h2]

/-! ### Claim C5 -/

/-- C5: for every escrow record reachable from a successful create by any
sequence of the public operations, 0 ≤ paid_amount ≤ total_amount holds
after every operation, and paid_amount never decreases across any single
operation. -/
theorem claim_C5_paid_amount_bounds_and_monotone :
    (∀ s, Reach s → ∀ id e, lookupE s.escrows id = some e →
      0 ≤ e.paid_amount ∧ e.paid_amount ≤ e.total_amount) ∧
    (∀ s s', Reach s → Step s s' → ∀ id e e', lookupE s.escrows id = some e →
      lookupE s'.escrows id = some e' → e.paid_amount ≤ e'.paid_amount) := by
  constructor
  · intro s hr id e hle
    have hinv := (reach_stateInv s hr id e hle).1
    refine ⟨hinv.paid_nonneg, ?_⟩
    calc e.paid_amount ≤ approvedSum e.milestones := hinv.paid_le_approved
      _ ≤ amountSum e.milestones := approvedSum_le_amountSum _ hinv.amounts_pos
      _ = e.total_amount := hinv.total_eq.symm
  · intro s s' hr hstep id e e' hle hle'
    have hs := reach_stateInv s hr
    exact paid_mono_of_stepPost s s' hs (stepPost_of_step s s' hs hstep) id e e' hle hle'

/-- Witness for C5 at the concrete reachable state sSubmitted. -/
theorem claim_C5_witness :
    0 ≤ eSubmitted.paid_amount ∧ eSubmitted.paid_amount ≤ eSubmitted.total_amount :=
  claim_C5_paid_amount_bounds_and_monotone.1 sSubmitted
    (Reach.step (Reach.step (Reach.step Reach.init (Step.create_s initState 0 0 1 2 [5] 3 3600))
      (Step.start_work_s sCreated 1 1)) (Step.submit_s sStarted 10 1 1 0))
    1 eSubmitted (by decide)

/-! ### Claim C6 (corrected) -/

/-- C6 counterexample: after create followed by refund, the stored escrow
has status Refunded — so its status has left Pending — while work_started
is still false, contradicting the claimed equivalence. -/
theorem claim_C6_counterexample :
    Reach sRefunded ∧ lookupE sRefunded.escrows 1 = some eRefunded ∧
    eRefunded.status = .Refunded ∧ eRefunded.work_started = false :=
  ⟨Reach.step (Reach.step Reach.init (Step.create_s initState 0 0 1 2 [5] 3 3600))
      (Step.refund_s sCreated 10 0 1),
   by decide, by decide, by decide⟩

/-- C6 amended: for every reachable stored escrow, work_started is true if
and only if the current status is InProgress or Disputed; in particular a
refunded escrow has left Pending with work_started still false. -/
theorem claim_C6_amended_work_started_iff_active :
    ∀ s, Reach s → ∀ id e, lookupE s.escrows id = some e →
      (e.work_started = true ↔ (e.status = .InProgress ∨ e.status = .Disputed)) := by
  intro s hr id e hle
  exact (reach_stateInv s hr id e hle).1.ws_iff

/-- Witness for the amended C6 at the concrete reachable state sStarted. -/
theorem claim_C6_witness :
    eStarted.work_started = true ↔ (eStarted.status = .InProgress ∨ eStarted.status = .Disputed) :=
  claim_C6_amended_work_started_iff_active sStarted
    (Reach.step (Reach.step Reach.init (Step.create_s initState 0 0 1 2 [5] 3 3600))
      (Step.start_work_s sCreated 1 1))
    1 eStarted (by decide)

/-! ### Claim C9 -/

/-- C9: no public operation ever assigns status Released: every escrow
reachable from a successful create by any sequence of public operations has
a status different from Released. -/
theorem claim_C9_released_unreachable :
    ∀ s, Reach s → ∀ id e, lookupE s.escrows id = some e → e.status ≠ .Released := by
  intro s hr id e hle
  exact (reach_stateInv s hr id e hle).1.not_released

/-- Witness for C9 at the concrete reachable state sCreated. -/
theorem claim_C9_witness : eCreated.status ≠ .Released :=
  claim_C9_released_unreachable sCreated
    (Reach.step Reach.init (Step.create_s initState 0 0 1 2 [5] 3 3600))
    1 eCreated (by decide)

/-! ### Claim C2 (code bug: the guard is leaked on two error paths) -/

/-- C2: the code leaks the reentrancy guard.  Starting from the initial
state (lock clear, so acquisition succeeds), start_work on a nonexistent id
returns EscrowNotFound with the lock still set, because load_escrow's error
is propagated by the question-mark operator before any release_lock; and
from a state whose counter has reached the u32 maximum, create returns
CounterOverflow with the lock still set, because peek_next_id's error is
propagated the same way. -/
theorem claim_C2_lock_leak :
    initState.lock = false ∧
    start_work initState 0 1 =
      (.error .EscrowNotFound, { escrows := [], counter := 0, lock := true }) ∧
    sCounterMax.lock = false ∧
    create safe_transfer sCounterMax 0 0 1 2 [5] 3 3600 =
      (.error .CounterOverflow, { escrows := [], counter := u32MAX, lock := true }) := by
  refine ⟨rfl, by decide, rfl, by decide⟩

/-! ### Claim C8 (corrected) -/

/-- C8 counterexample: a second start_work on a reachable escrow already in
InProgress fails with WorkStarted, not AlreadyCompleted, because the code
checks work_started before it checks the status. -/
theorem claim_C8_counterexample :
    Reach sStarted ∧ lookupE sStarted.escrows 1 = some eStarted ∧
    eStarted.status = .InProgress ∧ (1 : Address) = eStarted.beneficiary ∧
    start_work sStarted 1 1 = (.error .WorkStarted, sStarted) :=
  ⟨Reach.step (Reach.step Reach.init (Step.create_s initState 0 0 1 2 [5] 3 3600))
      (Step.start_work_s sCreated 1 1),
   by decide, by decide, by decide, by decide⟩

/-- C8 amended: for every existing escrow whose status is not Pending,
start_work called by the beneficiary fails, with WorkStarted when
work_started is true (in particular on a second call for an escrow in
InProgress) and with AlreadyCompleted when work_started is false. -/
theorem claim_C8_amended_start_work_non_pending (s : ContractState) (caller : Address)
    (id : Nat) (escrow : EscrowData) (hl : s.lock = false)
    (hle : lookupE s.escrows id = some escrow) (hc : caller = escrow.beneficiary)
    (hp : escrow.status ≠ .Pending) :
    (start_work s caller id).1 =
      .error (if escrow.work_started then EscrowError.WorkStarted
              else EscrowError.AlreadyCompleted) := by
  unfold start_work acquire_lock load_escrow
  rw [if_neg (by rw [hl]; simp)]
  simp only [hle]
  rw [if_neg (by rw [hc]; simp)]
  by_cases hw : escrow.work_started
  · rw [if_pos hw, if_pos hw]
  · rw [if_neg hw, if_neg hw, if_pos hp]

/-- Witness for the amended C8: the second start_work on the InProgress
escrow of sStarted returns the work_started-branch error. -/
theorem claim_C8_witness :
    (start_work sStarted 1 1).1 =
      .error (if eStarted.work_started then EscrowError.WorkStarted
              else EscrowError.AlreadyCompleted) :=
  claim_C8_amended_start_work_non_pending sStarted 1 1 eStarted (by decide) (by decide)
    (by decide) (by decide)

/-! ### Claim C10: TransferFailed is unreachable in the deployed contract -/

theorem returnsTF_error_false {α : Type} (err : EscrowError)
    (hne : err ≠ .TransferFailed) :
    returnsTransferFailed (.error err : Except EscrowError α) = false := by
  cases err <;> simp_all [returnsTransferFailed]

theorem checkAmounts_error_ne_TF (amts : List Int) (t : Int) (err : EscrowError)
    (h : checkAmounts t amts = .error err) : err ≠ .TransferFailed := by
  induction amts generalizing t with
  | nil => exact absurd h (by simp [checkAmounts])
  | cons a rest ih =>
    unfold checkAmounts at h
    by_cases h1 : a ≤ 0
    · rw [if_pos h1] at h
      injection h with h
      rw [← h]
      decide
    · rw [if_neg h1] at h
      by_cases h2 : t + a > i128MAX ∨ t + a < i128MIN
      · rw [if_pos h2] at h
        injection h with h
        rw [← h]
        decide
      · rw [if_neg h2] at h
        exact ih (t + a) h

theorem noTF_create (s : ContractState) (now : Nat) (dep ben arb : Address)
    (amts : List Int) (tok : Address) (dur : Nat) :
    returnsTransferFailed (create safe_transfer s now dep ben arb amts tok dur).1 = false := by
  unfold create acquire_lock peek_next_id safe_transfer
  by_cases h1 : ben = dep
  · rw [if_pos h1]; rfl
  · rw [if_neg h1]
    by_cases h2 : arb = dep ∨ arb = ben
    · rw [if_pos h2]; rfl
    · rw [if_neg h2]
      by_cases h3 : dur < MIN_DURATION ∨ dur > MAX_DURATION
      · rw [if_pos h3]; rfl
      · rw [if_neg h3]
        by_cases h4 : amts.isEmpty
        · rw [if_pos h4]; rfl
        · rw [if_neg h4]
          cases hck : checkAmounts 0 amts with
          | error err =>
            simp only [hck]
            exact returnsTF_error_false err (checkAmounts_error_ne_TF amts 0 err hck)
          | ok total =>
            simp only [hck]
            by_cases h5 : now + dur > u64MAX
            · rw [if_pos h5]; rfl
            · rw [if_neg h5]
              by_cases hl : s.lock
              · rw [if_pos hl]; rfl
              · rw [if_neg hl]
                dsimp only
                by_cases h6 : s.counter + 1 > u32MAX
                · rw [if_pos h6]; rfl
                · rw [if_neg h6]; rfl

theorem noTF_start_work (s : ContractState) (caller : Address) (id : Nat) :
    returnsTransferFailed (start_work s caller id).1 = false := by
  unfold start_work acquire_lock load_escrow
  by_cases hl : s.lock
  · rw [if_pos hl]; rfl
  · rw [if_neg hl]
    cases hlk : lookupE s.escrows id with
    | none => simp only [hlk]; rfl
    | some escrow =>
      simp only [hlk]
      by_cases hc : caller ≠ escrow.beneficiary
      · rw [if_pos hc]; rfl
      · rw [if_neg hc]
        by_cases hw : escrow.work_started
        · rw [if_pos hw]; rfl
        · rw [if_neg hw]
          by_cases hp : escrow.status ≠ EscrowStatus.Pending
          · rw [if_pos hp]; rfl
          · rw [if_neg hp]; rfl

theorem noTF_submit (s : ContractState) (now : Nat) (caller : Address) (id mi : Nat) :
    returnsTransferFailed (submit_milestone s now caller id mi).1 = false := by
  unfold submit_milestone acquire_lock load_escrow
  by_cases hl : s.lock
  · rw [if_pos hl]; rfl
  · rw [if_neg hl]
    cases hlk : lookupE s.escrows id with
    | none => simp only [hlk]; rfl
    | some escrow =>
      simp only [hlk]
      by_cases hc : caller ≠ escrow.beneficiary
      · rw [if_pos hc]; rfl
      · rw [if_neg hc]
        by_cases hip : escrow.status ≠ EscrowStatus.InProgress
        · rw [if_pos hip]; rfl
        · rw [if_neg hip]
          by_cases hge : mi ≥ escrow.milestones.length
          · rw [dif_pos hge]; rfl
          · rw [dif_neg hge]
            have hk : mi < escrow.milestones.length := by omega
            by_cases hns : (escrow.milestones.get ⟨mi, hk⟩).status ≠ MilestoneStatus.NotStarted
            · rw [if_pos hns]; rfl
            · rw [if_neg hns]; rfl

theorem noTF_approve (s : ContractState) (now : Nat) (caller : Address) (id mi : Nat) :
    returnsTransferFailed (approve_milestone safe_transfer s now caller id mi).1 = false := by
  unfold approve_milestone acquire_lock load_escrow safe_transfer
  by_cases hl : s.lock
  · rw [if_pos hl]; rfl
  · rw [if_neg hl]
    cases hlk : lookupE s.escrows id with
    | none => simp only [hlk]; rfl
    | some escrow =>
      simp only [hlk]
      by_cases hc : caller ≠ escrow.depositor
      · rw [if_pos hc]; rfl
      · rw [if_neg hc]
        by_cases hge : mi ≥ escrow.milestones.length
        · rw [dif_pos hge]; rfl
        · rw [dif_neg hge]
          have hk : mi < escrow.milestones.length := by omega
          by_cases hsub : (escrow.milestones.get ⟨mi, hk⟩).status ≠ MilestoneStatus.Submitted
          · rw [if_pos hsub]; rfl
          · rw [if_neg hsub]; rfl

theorem noTF_dispute (s : ContractState) (caller : Address) (id mi : Nat) :
    returnsTransferFailed (dispute_milestone s caller id mi).1 = false := by
  unfold dispute_milestone acquire_lock load_escrow
  by_cases hl : s.lock
  · rw [if_pos hl]; rfl
  · rw [if_neg hl]
    cases hlk : lookupE s.escrows id with
    | none => simp only [hlk]; rfl
    | some escrow =>
      simp only [hlk]
      by_cases hc : caller ≠ escrow.depositor
      · rw [if_pos hc]; rfl
      · rw [if_neg hc]
        by_cases hge : mi ≥ escrow.milestones.length
        · rw [dif_pos hge]; rfl
        · rw [dif_neg hge]
          have hk : mi < escrow.milestones.length := by omega
          by_cases hsub : (escrow.milestones.get ⟨mi, hk⟩).status ≠ MilestoneStatus.Submitted
          · rw [if_pos hsub]; rfl
          · rw [if_neg hsub]; rfl

theorem noTF_resolve (s : ContractState) (caller : Address) (id mi : Nat) (pay : Int) :
    returnsTransferFailed
      (resolve_milestone_dispute safe_transfer s caller id mi pay).1 = false := by
  unfold resolve_milestone_dispute acquire_lock load_escrow safe_transfer
  by_cases hl : s.lock
  · rw [if_pos hl]; rfl
  · rw [if_neg hl]
    cases hlk : lookupE s.escrows id with
    | none => simp only [hlk]; rfl
    | some escrow =>
      simp only [hlk]
      by_cases hc : caller ≠ escrow.arbiter
      · rw [if_pos hc]; rfl
      · rw [if_neg hc]
        by_cases hge : mi ≥ escrow.milestones.length
        · rw [dif_pos hge]; rfl
        · rw [dif_neg hge]
          have hk : mi < escrow.milestones.length := by omega
          by_cases hd : (escrow.milestones.get ⟨mi, hk⟩).status ≠ MilestoneStatus.Disputed
          · rw [if_pos hd]; rfl
          · rw [if_neg hd]
            by_cases hrange : pay < 0 ∨ pay > (escrow.milestones.get ⟨mi, hk⟩).amount
            · rw [if_pos hrange]; rfl
            · rw [if_neg hrange]
              simp only [ite_self]
              rfl

theorem noTF_refund (s : ContractState) (now : Nat) (caller : Address) (id : Nat) :
    returnsTransferFailed (refund safe_transfer s now caller id).1 = false := by
  unfold refund acquire_lock load_escrow safe_transfer
  by_cases hl : s.lock
  · rw [if_pos hl]; rfl
  · rw [if_neg hl]
    cases hlk : lookupE s.escrows id with
    | none => simp only [hlk]; rfl
    | some escrow =>
      simp only [hlk]
      by_cases hc : caller ≠ escrow.depositor
      · rw [if_pos hc]; rfl
      · rw [if_neg hc]
        by_cases hw : escrow.work_started
        · rw [if_pos hw]; rfl
        · rw [if_neg hw]
          by_cases hp : escrow.status ≠ EscrowStatus.Pending
          · rw [if_pos hp]; rfl
          · rw [if_neg hp]
            by_cases hd : now ≥ escrow.deadline
            · rw [if_pos hd]; rfl
            · rw [if_neg hd]; rfl

/-- C10: safe_transfer returns Ok(()) for every input, so the TransferFailed
branches in create, approve_milestone and refund, and the error-propagating
transfer paths in resolve_milestone_dispute, are unreachable: no public
operation of the deployed contract ever returns TransferFailed. -/
theorem claim_C10_transfer_failed_unreachable :
    (∀ (tok src dst : Address) (amt : Int), safe_transfer tok src dst amt = .ok ()) ∧
    (∀ s now dep ben arb amts tok dur,
      returnsTransferFailed (create safe_transfer s now dep ben arb amts tok dur).1 = false) ∧
    (∀ s caller id, returnsTransferFailed (start_work s caller id).1 = false) ∧
    (∀ s now caller id mi,
      returnsTransferFailed (submit_milestone s now caller id mi).1 = false) ∧
    (∀ s now caller id mi,
      returnsTransferFailed (approve_milestone safe_transfer s now caller id mi).1 = false) ∧
    (∀ s caller id mi, returnsTransferFailed (dispute_milestone s caller id mi).1 = false) ∧
    (∀ s caller id mi pay,
      returnsTransferFailed
        (resolve_milestone_dispute safe_transfer s caller id mi pay).1 = false) ∧
    (∀ s now caller id, returnsTransferFailed (refund safe_transfer s now caller id).1 = false) ∧
    (∀ s id, returnsTransferFailed (get_escrow s id) = false) ∧
    (∀ s, returnsTransferFailed (next_id s) = false) := by
  refine ⟨fun _ _ _ _ => rfl, noTF_create, noTF_start_work, noTF_submit, noTF_approve,
    noTF_dispute, noTF_resolve, noTF_refund, ?_, ?_⟩
  · intro s id
    unfold get_escrow load_escrow
    cases hlk : lookupE s.escrows id with
    | none => simp only [hlk]; rfl
    | some escrow => simp only [hlk]; rfl
  · intro s
    unfold next_id peek_next_id
    by_cases h : s.counter + 1 > u32MAX
    · rw [if_pos h]; rfl
    · rw [if_neg h]; rfl

/-! ### Claim C1 (corrected: the record is persisted before the transfer) -/

/-- C1 counterexample: on the reachable state sSubmitted (milestone 0
Submitted, paid_amount 0), approve_milestone under a failing transfer
(transfer modelled per spec section 6 as the fallible black box) returns
TransferFailed, yet the stored escrow now carries paid_amount 5 and the
milestone Approved: the record was persisted before the transfer attempt,
so it is not unchanged as the claim states. -/
theorem claim_C1_counterexample :
    Reach sSubmitted ∧
    lookupE sSubmitted.escrows 1 = some eSubmitted ∧
    eSubmitted.paid_amount = 0 ∧
    (eSubmitted.milestones.getD 0 (mkMilestone 0)).status = .Submitted ∧
    (approve_milestone failTransfer sSubmitted 20 0 1 0).1 = .error .TransferFailed ∧
    lookupE ((approve_milestone failTransfer sSubmitted 20 0 1 0).2).escrows 1 =
      some eApproved ∧
    eApproved.paid_amount = 5 ∧
    (eApproved.milestones.getD 0 (mkMilestone 0)).status = .Approved :=
  ⟨Reach.step (Reach.step (Reach.step Reach.init (Step.create_s initState 0 0 1 2 [5] 3 3600))
      (Step.start_work_s sCreated 1 1)) (Step.submit_s sStarted 10 1 1 0),
   by decide, by decide, by decide, by decide, by decide, by decide, by decide⟩

/-- C1 amended: for every escrow with a milestone in status Submitted, if
approve_milestone is called by the depositor and the payment transfer to
the beneficiary fails, the operation returns TransferFailed but the stored
escrow record has already been persisted with paid_amount incremented by
the milestone amount and the milestone status set to Approved (the store
happens before the transfer attempt and is not rolled back). -/
theorem claim_C1_amended_approve_persists_before_transfer (s : ContractState) (now : Nat)
    (caller : Address) (id k : Nat) (escrow : EscrowData) (hl : s.lock = false)
    (hle : lookupE s.escrows id = some escrow) (hc : caller = escrow.depositor)
    (hk : k < escrow.milestones.length)
    (hsub : (escrow.milestones.get ⟨k, hk⟩).status = .Submitted) :
    approve_milestone failTransfer s now caller id k =
      (.error .TransferFailed,
        { escrows := setE s.escrows id
            ({ escrow with
               milestones := escrow.milestones.set k
                 ({ escrow.milestones.get ⟨k, hk⟩ with
                    status := .Approved, approved_at := some now }),
               paid_amount := escrow.paid_amount + (escrow.milestones.get ⟨k, hk⟩).amount }),
          counter := s.counter, lock := false }) := by
  unfold approve_milestone acquire_lock load_escrow failTransfer
  rw [if_neg (by rw [hl]; simp)]
  simp only [hle]
  rw [if_neg (by rw [hc]; simp)]
  rw [dif_neg (by omega)]
  rw [if_neg (by rw [hsub]; simp)]
  rfl

/-- Witness for the amended C1 at the concrete reachable state sSubmitted. -/
theorem claim_C1_witness :
    approve_milestone failTransfer sSubmitted 20 0 1 0 =
      (.error .TransferFailed,
        { escrows := setE sSubmitted.escrows 1
            ({ eSubmitted with
               milestones := eSubmitted.milestones.set 0
                 ({ eSubmitted.milestones.get ⟨0, by decide⟩ with
                    status := .Approved, approved_at := some 20 }),
               paid_amount := eSubmitted.paid_amount +
                 (eSubmitted.milestones.get ⟨0, by decide⟩).amount }),
          counter := sSubmitted.counter, lock := false }) :=
  claim_C1_amended_approve_persists_before_transfer sSubmitted 20 0 1 0 eSubmitted
    (by decide) (by decide) (by decide) (by decide) (by decide)

/-! ### Claim C3 (corrected: Refunded is persisted before the transfer) -/

/-- C3 counterexample: on the reachable state sCreated (Pending, work not
started, before the deadline), refund under a failing transfer returns
TransferFailed, yet the stored escrow status is Refunded: the status write
was persisted before the transfer attempt, contradicting the claim that
the status is not Refunded afterwards. -/
theorem claim_C3_counterexample :
    Reach sCreated ∧
    lookupE sCreated.escrows 1 = some eCreated ∧
    eCreated.status = .Pending ∧ eCreated.work_started = false ∧
    (10 < eCreated.deadline) ∧
    (refund failTransfer sCreated 10 0 1).1 = .error .TransferFailed ∧
    lookupE ((refund failTransfer sCreated 10 0 1).2).escrows 1 = some eRefunded ∧
    eRefunded.status = .Refunded :=
  ⟨Reach.step Reach.init (Step.create_s initState 0 0 1 2 [5] 3 3600),
   by decide, by decide, by decide, by decide, by decide, by decide, by decide⟩

/-- C3 amended: for every escrow in status Pending with work_started false
and current time strictly before the deadline, if refund is called by the
depositor and the transfer back to the depositor fails, the operation
returns TransferFailed but the stored escrow status has already been
persisted as Refunded (the status write precedes the transfer attempt and
is not rolled back). -/
theorem claim_C3_amended_refund_persists_before_transfer (s : ContractState) (now : Nat)
    (caller : Address) (id : Nat) (escrow : EscrowData) (hl : s.lock = false)
    (hle : lookupE s.escrows id = some escrow) (hc : caller = escrow.depositor)
    (hw : escrow.work_started = false) (hp : escrow.status = .Pending)
    (hd : now < escrow.deadline) :
    refund failTransfer s now caller id =
      (.error .TransferFailed,
        { escrows := setE s.escrows id ({ escrow with status := .Refunded }),
          counter := s.counter, lock := false }) := by
  unfold refund acquire_lock load_escrow failTransfer
  rw [if_neg (by rw [hl]; simp)]
  simp only [hle]
  rw [if_neg (by rw [hc]; simp)]
  rw [if_neg (by rw [hw]; simp)]
  rw [if_neg (by rw [hp]; simp)]
  rw [if_neg (by omega)]
  rfl

/-- Witness for the amended C3 at the concrete reachable state sCreated. -/
theorem claim_C3_witness :
    refund failTransfer sCreated 10 0 1 =
      (.error .TransferFailed,
        { escrows := setE sCreated.escrows 1 ({ eCreated with status := .Refunded }),
          counter := sCreated.counter, lock := false }) :=
  claim_C3_amended_refund_persists_before_transfer sCreated 10 0 1 eCreated
    (by decide) (by decide) (by decide) (by decide) (by decide) (by decide)

/-! ### Claim C4 -/

/-- C4: a create call that passes all validation but whose inbound transfer
fails (transfer modelled per spec section 6 as the fallible black box)
returns TransferFailed and leaves the state exactly as before: no escrow
record is persisted, get_escrow at the id that would have been assigned
still returns EscrowNotFound, and next_id is unchanged. -/
theorem claim_C4_create_failed_transfer_rolls_back (s : ContractState) (now : Nat)
    (dep ben arb tok : Address) (amts : List Int) (dur : Nat) (total : Int)
    (h1 : ben ≠ dep) (h2 : arb ≠ dep) (h3 : arb ≠ ben)
    (h4 : MIN_DURATION ≤ dur) (h5 : dur ≤ MAX_DURATION) (h6 : amts ≠ [])
    (hck : checkAmounts 0 amts = .ok total) (h7 : now + dur ≤ u64MAX)
    (hl : s.lock = false) (h8 : s.counter + 1 ≤ u32MAX)
    (hfresh : lookupE s.escrows (s.counter + 1) = none) :
    create failTransfer s now dep ben arb amts tok dur = (.error .TransferFailed, s) ∧
    get_escrow ((create failTransfer s now dep ben arb amts tok dur).2) (s.counter + 1) =
      .error .EscrowNotFound ∧
    next_id ((create failTransfer s now dep ben arb amts tok dur).2) = next_id s := by
  obtain ⟨es, cn, lk⟩ := s
  simp only at hl hfresh h8
  subst hl
  have hmain : create failTransfer { escrows := es, counter := cn, lock := false }
      now dep ben arb amts tok dur = (.error .TransferFailed,
        { escrows := es, counter := cn, lock := false }) := by
    unfold create acquire_lock peek_next_id failTransfer
    rw [if_neg h1]
    rw [if_neg (by push_neg; exact ⟨h2, h3⟩)]
    rw [if_neg (by push_neg; omega)]
    rw [if_neg (by simp [List.isEmpty_iff, h6])]
    simp only [hck]
    rw [if_neg (by omega)]
    rw [if_neg (by simp)]
    dsimp only
    rw [if_neg (by omega)]
    rfl
  refine ⟨hmain, ?_, ?_⟩
  · rw [hmain]
    unfold get_escrow load_escrow
    simp only [hfresh]
  · rw [hmain]

/-- Witness for C4 at the initial state with milestone list [5]. -/
theorem claim_C4_witness :
    create failTransfer initState 0 0 1 2 [5] 3 3600 = (.error .TransferFailed, initState) ∧
    get_escrow ((create failTransfer initState 0 0 1 2 [5] 3 3600).2) 1 =
      .error .EscrowNotFound ∧
    next_id ((create failTransfer initState 0 0 1 2 [5] 3 3600).2) = next_id initState :=
  claim_C4_create_failed_transfer_rolls_back initState 0 0 1 2 3 [5] 3600 5
    (by decide) (by decide) (by decide) (by decide) (by decide) (by decide)
    (by decide) (by decide) rfl (by decide) rfl

/-! ### Claim C7 (corrected: the two milestone checks interleave per element) -/

/-- C7 counterexample: with amounts [i128MAX, 1, -1] the list contains an
amount ≤ 0, so the claimed ordering demands ZeroAmount, but the scan hits
the overflow of the running sum at index 1 before reaching the non-positive
amount at index 2 and create returns InvalidMilestone. -/
theorem claim_C7_counterexample :
    create safe_transfer initState 0 0 1 2 [i128MAX, 1, -1] 3 3600 =
      (.error .InvalidMilestone, initState) ∧
    (-1 : Int) ∈ [i128MAX, 1, -1] ∧ ((-1 : Int) ≤ 0) := by
  refine ⟨by decide, by decide, by decide⟩

/-- C7 amended: create validates in the fixed order with the first failure
winning — InvalidBeneficiary, then InvalidArbiter, then InvalidDuration,
then the empty-list InvalidMilestone — and then scans the amounts left to
right with a running checked sum, where the first failing element decides
the error: ZeroAmount for a non-positive amount, InvalidMilestone for an
i128 overflow of the running sum; if the whole scan passes, an overflow of
now + duration yields InvalidDeadline. -/
theorem claim_C7_amended_validation_order (tf : TransferFn) (s : ContractState) (now : Nat)
    (dep ben arb tok : Address) (amts : List Int) (dur : Nat) :
    (ben = dep → (create tf s now dep ben arb amts tok dur).1 = .error .InvalidBeneficiary) ∧
    (ben ≠ dep → (arb = dep ∨ arb = ben) →
      (create tf s now dep ben arb amts tok dur).1 = .error .InvalidArbiter) ∧
    (ben ≠ dep → arb ≠ dep → arb ≠ ben → (dur < MIN_DURATION ∨ MAX_DURATION < dur) →
      (create tf s now dep ben arb amts tok dur).1 = .error .InvalidDuration) ∧
    (ben ≠ dep → arb ≠ dep → arb ≠ ben → MIN_DURATION ≤ dur → dur ≤ MAX_DURATION →
      amts = [] → (create tf s now dep ben arb amts tok dur).1 = .error .InvalidMilestone) ∧
    (ben ≠ dep → arb ≠ dep → arb ≠ ben → MIN_DURATION ≤ dur → dur ≤ MAX_DURATION →
      amts ≠ [] → firstBadIsNonPositive amts →
      (create tf s now dep ben arb amts tok dur).1 = .error .ZeroAmount) ∧
    (ben ≠ dep → arb ≠ dep → arb ≠ ben → MIN_DURATION ≤ dur → dur ≤ MAX_DURATION →
      amts ≠ [] → firstBadIsOverflow amts →
      (create tf s now dep ben arb amts tok dur).1 = .error .InvalidMilestone) ∧
    (ben ≠ dep → arb ≠ dep → arb ≠ ben → MIN_DURATION ≤ dur → dur ≤ MAX_DURATION →
      amts ≠ [] → (∀ a ∈ amts, 0 < a) → intSum amts ≤ i128MAX → u64MAX < now + dur →
      (create tf s now dep ben arb amts tok dur).1 = .error .InvalidDeadline) := by
  refine ⟨?_, ?_, ?_, ?_, ?_, ?_, ?_⟩
  · intro h1
    unfold create
    rw [if_pos h1]
  · intro h1 h2
    unfold create
    rw [if_neg h1, if_pos h2]
  · intro h1 h2 h3 h4
    unfold create
    rw [if_neg h1, if_neg (not_or.mpr ⟨h2, h3⟩), if_pos h4]
  · intro h1 h2 h3 h4 h5 h6
    subst h6
    unfold create
    rw [if_neg h1, if_neg (not_or.mpr ⟨h2, h3⟩), if_neg (by push_neg; omega)]
    rfl
  · intro h1 h2 h3 h4 h5 h6 hfb
    obtain ⟨k, hk, hbad, hpos, hsum⟩ := hfb
    have hE : checkAmounts 0 amts = .error .ZeroAmount :=
      checkAmounts_first_nonpos amts 0 k hk hbad hpos (le_refl 0)
        (by rw [zero_add]; exact hsum)
    unfold create
    rw [if_neg h1, if_neg (not_or.mpr ⟨h2, h3⟩), if_neg (by push_neg; omega),
      if_neg (by simp [List.isEmpty_iff, h6])]
    simp only [hE]
  · intro h1 h2 h3 h4 h5 h6 hfb
    obtain ⟨k, hk, hpos, hsum, hover⟩ := hfb
    have hE : checkAmounts 0 amts = .error .InvalidMilestone :=
      checkAmounts_first_overflow amts 0 k hk hpos (le_refl 0)
        (by rw [zero_add]; exact hsum) (by rw [zero_add]; exact hover)
    unfold create
    rw [if_neg h1, if_neg (not_or.mpr ⟨h2, h3⟩), if_neg (by push_neg; omega),
      if_neg (by simp [List.isEmpty_iff, h6])]
    simp only [hE]
  · intro h1 h2 h3 h4 h5 h6 hpos hsum h7
    have hE : checkAmounts 0 amts = .ok (0 + intSum amts) :=
      checkAmounts_all_ok amts 0 hpos (le_refl 0) (by rw [zero_add]; exact hsum)
    unfold create
    rw [if_neg h1, if_neg (not_or.mpr ⟨h2, h3⟩), if_neg (by push_neg; omega),
      if_neg (by simp [List.isEmpty_iff, h6])]
    simp only [hE]
    rw [if_pos h7]

/-- Witness for the amended C7: with amounts [2, -3] the first violation in
scan order is the non-positive -3 at index 1, and create returns
ZeroAmount. -/
theorem claim_C7_witness :
    (create safe_transfer initState 0 0 1 2 [2, -3] 3 3600).1 = .error .ZeroAmount :=
  (claim_C7_amended_validation_order safe_transfer initState 0 0 1 2 3 [2, -3] 3600).2.2.2.2.1
    (by decide) (by decide) (by decide) (by decide) (by decide) (by decide)
    ⟨1, by decide, by decide,
      fun j hj => by
        have hj0 : j = 0 := Nat.lt_one_iff.mp hj
        subst hj0
        decide,
      by decide⟩

end StellaPay
